import Mathlib

/-!
# Verification of the distro-tracker repository reconciliation core

A shallow embedding of the package-archive reconciliation code of
`pts/core/retrieve_data.py`, the task-running command
`distro_tracker/core/management/commands/pts_run_task.py` and the
space-delimited text field of `pts/core/utils/__init__.py`, together with
theorems checking the natural-language specification against it.

Conventions of the embedding:
* Django model tables become Lean lists of records held in a `DB` structure;
  query-set `filter`/`annotate(Count)`/`delete` operations become list
  operations on those lists, in table order.
* The mutable task object (its raised events and its list of processed
  repository-entry ids) becomes the explicit `TaskState` record threaded
  through the functions.
* `deb822` stanzas are modelled as already-parsed `Stanza` records (the
  `deb822` parser is an external library).
* Vendor hooks (`vendor.call`) and the archive cache are external
  collaborators: they enter as function arguments / already-fetched data.
* Fallible external calls are modelled with `Except String`.
-/

/-- Lifecycle events raised through `BaseTask.raise_event`.  Each constructor
is one event name of `UpdateRepositoriesTask.PRODUCES_EVENTS`, and its fields
are the keys of the `arguments` dictionary passed at the corresponding
`raise_event` call site in `pts/core/retrieve_data.py`. -/
inductive Event where
  | newSourcePackage (name : String)
  | newSourcePackageVersion (name version : String) (pk : Nat)
  | newSourcePackageInRepository (name repository : String)
  | newSourcePackageVersionInRepository (name version repository : String)
  | newBinaryPackage (name : String)
  | lostSourcePackage (name : String)
  | lostSourcePackageVersionInRepository (name version repository : String)
  | lostVersionOfSourcePackage (name version : String)
  | lostBinaryPackage (name : String)
deriving DecidableEq, Repr

/-- One stanza of a `Sources` listing file, as produced by
`deb822.Sources.iter_paragraphs` and consumed by `_update_sources_file` /
`_mark_sources_file_not_processed`.  The metadata fields carried here are the
ones the embedding tracks on a source package record: `maintainer` stands for
the extracted maintainer data and `binaries` for the `Binary` field's list of
binary package names.  `priority` and `sect` are the stanza's `Priority` and
`Section` fields (defaulting to the empty string via `stanza.get(..., '')`). -/
structure Stanza where
  package : String
  version : String
  priority : String
  sect : String
  maintainer : String
  binaries : List String
deriving DecidableEq, Repr

/-- A row of the `SourcePackage` table (one package version).
`pk` is the database primary key; `maintainer` and `binaryPackages` stand for
the metadata attached by `_extract_information_from_sources_entry`. -/
structure SourcePackage where
  name : String
  version : String
  pk : Nat
  maintainer : String
  binaryPackages : List String
deriving DecidableEq, Repr

/-- A row of the `SourcePackageRepositoryEntry` table: the link of one source
package version into one repository's current listing, with the
repository-local fields `priority` and `sect` (Section).  The source package
is referenced by its unique key `(name, version)`; `id` is the row's primary
key, which `_add_processed_repository_entry` records. -/
structure RepoEntry where
  id : Nat
  repository : String
  name : String
  version : String
  priority : String
  sect : String
deriving DecidableEq, Repr

/-- The record store: the tables touched by `UpdateRepositoriesTask`.
`sourceNames` is the `SourcePackageName` table, `sourcePackages` the
`SourcePackage` table, `entries` the `SourcePackageRepositoryEntry` table and
`binaryNames` the `BinaryPackageName` table.  `nextPk` / `nextEntryId` model
the auto-increment primary-key sequences. -/
structure DB where
  sourceNames : List String
  sourcePackages : List SourcePackage
  entries : List RepoEntry
  binaryNames : List String
  nextPk : Nat
  nextEntryId : Nat
deriving DecidableEq, Repr

/-- The task-local mutable state of one `UpdateRepositoriesTask` run: the
record store, the events raised so far in this run (the run's event log
restricted to this task) and `_all_repository_entries`, the ids of the
repository entries processed for the repository currently being handled. -/
structure TaskState where
  db : DB
  events : List Event
  processed : List Nat
deriving DecidableEq, Repr

/-- The result of `vendor.call('allow_package', stanza)`: the pair
`(allow, implemented)`. -/
abbrev AllowResult := Option Bool × Bool

/-- The skip test of `_update_sources_file`:
`if allow is not None and implemented and not allow: continue`. -/
def allowSkip : AllowResult → Bool
  | (some a, implemented) => implemented && !a
  | (none, _) => false

/-- `SourcePackageName.objects.get_or_create(name=stanza['package'])` followed
by `raise_event('new-source-package', ...)` when the name was newly created
(first half of the loop body of `_update_sources_file`). -/
def ensureName (n : String) (s : TaskState) : TaskState :=
  if s.db.sourceNames.contains n then s
  else
    { s with
      db := { s.db with sourceNames := s.db.sourceNames ++ [n] },
      events := s.events ++ [Event.newSourcePackage n] }

/-- `SourcePackage.objects.get_or_create(source_package_name=..., version=...)`
plus, on creation, the `new-source-package-version` event and the metadata
extraction of `_extract_information_from_sources_entry` followed by
`src_pkg.update(**entry); src_pkg.save()`.

Modelled from the spec: the helper
`pts.core.utils.packages.extract_information_from_sources_entry` is not under
`src/`; per the spec ("on creation only, extract and attach full metadata
... from the stanza") extraction is modelled as reading the stanza's metadata
fields.  The binary-package part is in `src/`: every binary name of the
stanza that has no `BinaryPackageName` row yet is created, raising
`new-binary-package` for it. -/
def ensureVersion (stanza : Stanza) (s : TaskState) : TaskState :=
  if s.db.sourcePackages.any
      (fun sp => sp.name == stanza.package && sp.version == stanza.version) then
    s
  else
    let pk := s.db.nextPk
    let newBinaries :=
      stanza.binaries.filter (fun b => !(s.db.binaryNames.contains b))
    let sp : SourcePackage :=
      { name := stanza.package, version := stanza.version, pk := pk,
        maintainer := stanza.maintainer, binaryPackages := stanza.binaries }
    { db :=
        { s.db with
          sourcePackages := s.db.sourcePackages ++ [sp],
          binaryNames := s.db.binaryNames ++ newBinaries,
          nextPk := pk + 1 },
      events :=
        s.events
          ++ [Event.newSourcePackageVersion stanza.package stanza.version pk]
          ++ newBinaries.map Event.newBinaryPackage,
      processed := s.processed }

/-- The repository-entry part of the loop body of `_update_sources_file`.

Modelled from the spec: the `Repository` model helpers
`has_source_package`, `has_source_package_name` and `add_source_package` are
not under `src/`; per the spec data model they are membership tests and an
insert on the `RepositoryEntry` table keyed by `(repository, version)` resp.
by the package name.  When no entry for `(repository, name, version)` exists:
if the repository has no entry for any version of the name,
`new-source-package-in-repository` is raised; the entry is created (with the
stanza's priority/section) and `new-source-package-version-in-repository` is
raised.  Otherwise the existing entry is fetched.  In both cases the entry is
recorded via `_add_processed_repository_entry`. -/
def ensureRepoEntry (repo : String) (stanza : Stanza) (s : TaskState) :
    TaskState :=
  match s.db.entries.find?
      (fun e => e.repository == repo && e.name == stanza.package
        && e.version == stanza.version) with
  | some e => { s with processed := s.processed ++ [e.id] }
  | none =>
    let inRepoEvents :=
      if s.db.entries.any
          (fun e => e.repository == repo && e.name == stanza.package) then []
      else [Event.newSourcePackageInRepository stanza.package repo]
    let entry : RepoEntry :=
      { id := s.db.nextEntryId, repository := repo, name := stanza.package,
        version := stanza.version, priority := stanza.priority,
        sect := stanza.sect }
    { db :=
        { s.db with
          entries := s.db.entries ++ [entry],
          nextEntryId := s.db.nextEntryId + 1 },
      events :=
        s.events ++ inRepoEvents
          ++ [Event.newSourcePackageVersionInRepository
                stanza.package stanza.version repo],
      processed := s.processed ++ [entry.id] }

/-- The body of the stanza loop of `_update_sources_file`: the vendor
`allow_package` skip test, then name / version / repository-entry processing
in order.  `allowHook` is the vendor-provided `allow_package` function. -/
def updateSourcesStanza (allowHook : Stanza → AllowResult) (repo : String)
    (s : TaskState) (stanza : Stanza) : TaskState :=
  if allowSkip (allowHook stanza) then s
  else ensureRepoEntry repo stanza (ensureVersion stanza (ensureName stanza.package s))

/-- `_update_sources_file`: process every stanza of one updated `Sources`
listing file, in file order. -/
def updateSourcesFile (allowHook : Stanza → AllowResult) (repo : String)
    (stanzas : List Stanza) (s : TaskState) : TaskState :=
  stanzas.foldl (updateSourcesStanza allowHook repo) s

/-- The dictionary comprehension of `_mark_sources_file_not_processed`:
`{stanza['package']: stanza['version'] for stanza in ...}`.  A Python dict
comprehension keeps the LAST binding for a repeated key, so the lookup
returns the last pair with the given name. -/
def lookupLast (ps : List (String × String)) (n : String) : Option String :=
  ps.foldl (fun acc p => if p.1 == n then some p.2 else acc) none

/-- `_mark_sources_file_not_processed`: for a `Sources` file that was not
updated since the last run, mark as still present every entry of the
repository whose package name appears in the file and whose version equals
the version the file records for that name. -/
def markSourcesFileNotProcessed (repo : String) (stanzas : List Stanza)
    (s : TaskState) : TaskState :=
  let packages := stanzas.map (fun st => (st.package, st.version))
  let marked := s.db.entries.filter
    (fun e => e.repository == repo && lookupLast packages e.name == some e.version)
  { s with processed := s.processed ++ marked.map (fun e => e.id) }

/-- `_update_repository_entries`: delete every entry of the repository whose
id was not recorded as processed, raising
`lost-source-package-version-in-repository` for each (in table order), then
clear the processed list (`_clear_processed_repository_entries`). -/
def updateRepositoryEntries (repo : String) (s : TaskState) : TaskState :=
  let stale := s.db.entries.filter
    (fun e => e.repository == repo && !(s.processed.contains e.id))
  { db :=
      { s.db with
        entries := s.db.entries.filter
          (fun e => !(e.repository == repo && !(s.processed.contains e.id))) },
    events :=
      s.events ++ stale.map
        (fun e => Event.lostSourcePackageVersionInRepository
          e.name e.version e.repository),
    processed := [] }

/-- The number of `SourcePackageRepositoryEntry` rows of a source package
version, across all repositories: Django's `annotate(count=Count('repository'))`
on `SourcePackage`. -/
def entryCount (db : DB) (sp : SourcePackage) : Nat :=
  (db.entries.filter (fun e => e.name == sp.name && e.version == sp.version)).length

/-- The number of `SourcePackage` rows of a package name:
`annotate(count=Count('source_package_versions'))` on `SourcePackageName`. -/
def versionCount (db : DB) (n : String) : Nat :=
  (db.sourcePackages.filter (fun sp => sp.name == n)).length

/-- The number of `SourcePackage` rows referencing a binary package name:
`annotate(count=Count('sourcepackage'))` on `BinaryPackageName`. -/
def binaryRefCount (db : DB) (b : String) : Nat :=
  (db.sourcePackages.filter (fun sp => sp.binaryPackages.contains b)).length

/-- `_remove_obsolete_packages`: three sequential applications of
`_remove_query_set_if_count_zero`.  Each stage first raises the stage's event
for every row whose count is zero (in table order) and then deletes exactly
those rows; the later stages see the deletions of the earlier ones. -/
def removeObsoletePackages (s : TaskState) : TaskState :=
  let deadVersions := s.db.sourcePackages.filter
    (fun sp => entryCount s.db sp == 0)
  let db1 :=
    { s.db with
      sourcePackages := s.db.sourcePackages.filter
        (fun sp => !(entryCount s.db sp == 0)) }
  let deadNames := db1.sourceNames.filter (fun n => versionCount db1 n == 0)
  let db2 :=
    { db1 with
      sourceNames := db1.sourceNames.filter
        (fun n => !(versionCount db1 n == 0)) }
  let deadBinaries := db2.binaryNames.filter (fun b => binaryRefCount db2 b == 0)
  let db3 :=
    { db2 with
      binaryNames := db2.binaryNames.filter
        (fun b => !(binaryRefCount db2 b == 0)) }
  { db := db3,
    events :=
      s.events
        ++ deadVersions.map
            (fun sp => Event.lostVersionOfSourcePackage sp.name sp.version)
        ++ deadNames.map Event.lostSourcePackage
        ++ deadBinaries.map Event.lostBinaryPackage,
    processed := s.processed }

/-- The per-repository input of one run: the repository's name, the stanzas
of its updated `Sources` files (as returned by the apt cache update) and the
stanzas of its cached `Sources` files that were not updated. -/
structure RepoInput where
  repo : String
  updatedFiles : List (List Stanza)
  cachedNotUpdatedFiles : List (List Stanza)
deriving Repr

/-- The per-repository body of `UpdateRepositoriesTask.execute`: process all
updated `Sources` files, mark versions of the not-updated cached files as
still existing, then delete the repository's stale entries. -/
def processRepository (allowHook : Stanza → AllowResult) (s : TaskState)
    (r : RepoInput) : TaskState :=
  let s1 := r.updatedFiles.foldl
    (fun acc f => updateSourcesFile allowHook r.repo f acc) s
  let s2 := r.cachedNotUpdatedFiles.foldl
    (fun acc f => markSourcesFileNotProcessed r.repo f acc) s1
  updateRepositoryEntries r.repo s2

/-- The transaction body of `UpdateRepositoriesTask.execute`: every
repository in turn, then the run-final garbage collection
`_remove_obsolete_packages`.  The task starts a run with no events raised and
no processed entries. -/
def executeModel (allowHook : Stanza → AllowResult) (repos : List RepoInput)
    (db : DB) : TaskState :=
  removeObsoletePackages
    (repos.foldl (processRepository allowHook) ⟨db, [], []⟩)

/-- Modelled from the spec: the decorator
`pts.core.tasks.clear_all_events_on_exception` together with
`transaction.commit_on_success` is not under `src/` (only its use on
`UpdateRepositoriesTask.execute` is).  Per the spec ("roll back all record
mutations and all events raised by this task for the run" / "either all
events it raised during execute() survive, or none do"), running a fallible
execute body yields the body's final record store and its raised events on
success, and the untouched initial record store with an empty event list for
the task on an exception. -/
def clearAllEventsOnException (body : DB → Except String (DB × List Event))
    (db : DB) : DB × List Event :=
  match body db with
  | Except.ok r => r
  | Except.error _ => (db, [])

/-- `UpdateRepositoriesTask.execute` as a fallible body: the apt cache update
(an external collaborator that may raise) delivers the per-repository inputs;
then the transactional reconciliation `executeModel` runs over them. -/
def updateRepositoriesExecuteBody (allowHook : Stanza → AllowResult)
    (cacheResult : Except String (List RepoInput)) (db : DB) :
    Except String (DB × List Event) :=
  match cacheResult with
  | Except.error e => Except.error e
  | Except.ok repos =>
    let t := executeModel allowHook repos db
    Except.ok (t.db, t.events)

/-- The per-name body of the loop of `Command.handle` in
`pts_run_task.py`: run the task; on success nothing is printed; on an
exception, if verbose, `task_name + ' failed!'` and the failure's traceback
are written to the command's output stream, otherwise nothing is.
`runTask` is `distro_tracker.core.tasks.run_task` (an external collaborator
here); an `Except.error` value carries the traceback text. -/
def handleOne (runTask : String → Except String Unit) (verbose : Bool)
    (name : String) : List String :=
  match runTask name with
  | Except.ok _ => []
  | Except.error trace =>
    if verbose then [name ++ " failed!", trace] else []

/-- The loop of `Command.handle`: each requested task name in order; the
result is the pair of (output lines written, task names whose run was
attempted). -/
def handleTasks (runTask : String → Except String Unit) (verbose : Bool) :
    List String → List String × List String
  | [] => ([], [])
  | name :: rest =>
    let out := handleOne runTask verbose name
    let r := handleTasks runTask verbose rest
    (out ++ r.1, name :: r.2)

/-- The `package_type` enumeration of `PackageName`. -/
inductive PackageType where
  | pseudo
  | subscriptionOnly
  | normal
deriving DecidableEq, Repr

/-- A row of the `PackageName` table.  `otherFields` stands for all the
stored fields other than the name and the package type. -/
structure PackageRecord where
  name : String
  packageType : PackageType
  otherFields : String
deriving DecidableEq, Repr

/-- The names of the stored pseudo packages: `PseudoPackageName.objects.all()`.
Modelled from the spec: `pts.core.models` is not under `src/`; per the spec
(`package_type` enumerated \x7bnormal, pseudo, subscription-only\x7d, proxy
model reuse) the `PseudoPackageName` manager is the `PackageName` table
restricted to rows of pseudo type. -/
def pseudoNames (packages : List PackageRecord) : List String :=
  (packages.filter (fun p => p.packageType == PackageType.pseudo)).map
    (fun p => p.name)

/-- First-occurrence deduplication: Python's `set(pseudo_packages)`
determines membership and iterates each distinct name once. -/
def dedup : List String → List String
  | [] => []
  | x :: xs => x :: (dedup xs).filter (fun y => !(y == x))

/-- `update_pseudo_package_list` of `pts/core/retrieve_data.py`.
`vendorResult` is the outcome of `vendor.call('get_pseudo_package_list')`:
an exception, or the pair `(pseudo_packages, implemented)`.  On an exception,
an unimplemented hook, or a `None` list the stored packages are returned
unchanged.  Otherwise every stored pseudo package whose name is not in the
returned set is demoted to subscription-only (saving only the type change),
every stored pseudo package still in the set is left alone, and each left
over name of the set is created as a pseudo package. -/
def updatePseudoPackageList
    (vendorResult : Except String (Option (List String) × Bool))
    (packages : List PackageRecord) : List PackageRecord :=
  match vendorResult with
  | Except.error _ => packages
  | Except.ok (pseudoPackages?, implemented) =>
    if !implemented then packages
    else
      match pseudoPackages? with
      | none => packages
      | some names =>
        let nameSet := dedup names
        let updated := packages.map (fun p =>
          if p.packageType == PackageType.pseudo && !(nameSet.contains p.name)
          then { p with packageType := PackageType.subscriptionOnly }
          else p)
        let leftovers :=
          nameSet.filter (fun n => !((pseudoNames packages).contains n))
        updated ++ leftovers.map (fun n =>
          { name := n, packageType := PackageType.pseudo, otherFields := "" })

/-- Python whitespace for `str.split()` (the ASCII whitespace characters). -/
def isPySpace (c : Char) : Bool :=
  c == ' ' || c == '\t' || c == '\n' || c == '\r'
    || c == Char.ofNat 11 || c == Char.ofNat 12

/-- The worker of `str.split()` with no argument: split on runs of
whitespace, discarding empty pieces.  `acc` holds the reversed characters of
the token currently being read. -/
def pySplitAux : List Char → List Char → List (List Char)
  | [], acc => if acc.isEmpty then [] else [acc.reverse]
  | c :: rest, acc =>
    if isPySpace c then
      if acc.isEmpty then pySplitAux rest []
      else acc.reverse :: pySplitAux rest []
    else pySplitAux rest (c :: acc)

/-- Python's `value.split()` on a string (a string is modelled as its list of
characters). -/
def pySplit (s : List Char) : List (List Char) :=
  pySplitAux s []

/-- Python's `' '.join(...)`. -/
def pyJoin : List (List Char) → List Char
  | [] => []
  | [t] => t
  | t :: u :: rest => t ++ ' ' :: pyJoin (u :: rest)

/-- `SpaceDelimitedTextField.get_prep_value` on a list value:
`' '.join(map(str, value))` (each element is already a string, so `str` is
the identity). -/
def getPrepValue (l : List (List Char)) : List Char :=
  pyJoin l

/-- `PrettyPrintList`: the wrapper holding the parsed list. -/
structure PrettyPrintList where
  list : List (List Char)
deriving DecidableEq, Repr

/-- `SpaceDelimitedTextField.to_python` on a string value:
`PrettyPrintList(value.split())`. -/
def toPython (value : List Char) : PrettyPrintList :=
  ⟨pySplit value⟩

/-- `PrettyPrintList.__eq__` compared against a plain list:
`self._list == other`. -/
def prettyPrintListEqList (p : PrettyPrintList) (other : List (List Char)) :
    Bool :=
  p.list == other

/-- Concrete fixture: an unimplemented `allow_package` vendor hook
(`vendor.call` returns `(None, False)`), so no stanza is skipped. -/
def hookNotImplemented : Stanza → AllowResult := fun _ => (none, false)

/-- Concrete fixture: an empty record store. -/
def emptyDB : DB := ⟨[], [], [], [], 0, 0⟩

/-- Concrete fixture: a fresh task state over the empty record store. -/
def emptyState : TaskState := ⟨emptyDB, [], []⟩

/-- Concrete fixture: a `run_task` stub failing for the task name `t1` with
traceback text `trace` and succeeding for every other name. -/
def sampleRunTask : String → Except String Unit :=
  fun nm => if nm == "t1" then Except.error "trace" else Except.ok ()

/-- Concrete fixture: a stanza for `pkg-a` version `1.0`. -/
def stanzaA1 : Stanza := ⟨"pkg-a", "1.0", "optional", "misc", "maint", []⟩

/-- Concrete fixture: a stanza for `pkg-a` version `2.0` (same package name,
different version, as in a duplicate-name listing). -/
def stanzaA2 : Stanza := ⟨"pkg-a", "2.0", "optional", "misc", "maint", []⟩

/-- Concrete fixture: a run input for repository `R` with one updated
`Sources` file listing `pkg-a 1.0` and no not-updated cached files. -/
def repoInputA : RepoInput := ⟨"R", [[stanzaA1]], []⟩

/-- Concrete fixture: a task state whose store already holds the
`PackageVersion` `pkg-a 1.0` (and its name), with no repository entries. -/
def stateWithA1 : TaskState :=
  ⟨⟨["pkg-a"], [⟨"pkg-a", "1.0", 0, "maint", []⟩], [], [], 1, 0⟩, [], []⟩

/-- Concrete fixture: a stored package list with one pseudo package `x`. -/
def pseudoPackagesFixture : List PackageRecord :=
  [⟨"x", PackageType.pseudo, "keep"⟩]

/-! ## Helper lemmas -/

/-- Splitting a whitespace-free prefix accumulates it onto the current token. -/
theorem pySplitAux_append (t rest acc : List Char)
    (h : ∀ c ∈ t, isPySpace c = false) :
    pySplitAux (t ++ rest) acc = pySplitAux rest (t.reverse ++ acc) := by
  induction t generalizing acc with
  | nil => simp
  | cons c cs ih =>
    have hc : isPySpace c = false := h c (List.mem_cons_self c cs)
    have hcs : ∀ x ∈ cs, isPySpace x = false :=
      fun x hx => h x (List.mem_cons_of_mem c hx)
    have step : pySplitAux (c :: (cs ++ rest)) acc
        = pySplitAux (cs ++ rest) (c :: acc) := by
      simp [pySplitAux, hc]
    rw [List.cons_append, step, ih (c :: acc) hcs, List.reverse_cons,
      List.append_assoc, List.singleton_append]

/-- Round-trip of the split worker against `' '.join`: joining non-empty
whitespace-free tokens with single spaces and re-splitting recovers them. -/
theorem pySplit_pyJoin (l : List (List Char))
    (h : ∀ t ∈ l, t ≠ [] ∧ ∀ c ∈ t, isPySpace c = false) :
    pySplit (pyJoin l) = l := by
  induction l with
  | nil => rfl
  | cons t rest ih =>
    obtain ⟨hne, hns⟩ := h t (List.mem_cons_self t rest)
    have hrevne : t.reverse ≠ [] := fun hrev => hne (by simpa using hrev)
    cases rest with
    | nil =>
      show pySplitAux (pyJoin [t]) [] = [t]
      have : pyJoin [t] = t ++ [] := by simp [pyJoin]
      rw [this, pySplitAux_append t [] [] hns]
      simp [pySplitAux, List.isEmpty_iff, hrevne]
    | cons u rest' =>
      have hrest : ∀ x ∈ u :: rest', x ≠ [] ∧ ∀ c ∈ x, isPySpace c = false :=
        fun x hx => h x (List.mem_cons_of_mem t hx)
      show pySplitAux (pyJoin (t :: u :: rest')) [] = t :: u :: rest'
      have hj : pyJoin (t :: u :: rest') = t ++ ' ' :: pyJoin (u :: rest') := by
        simp [pyJoin]
      rw [hj, pySplitAux_append t (' ' :: pyJoin (u :: rest')) [] hns]
      have hsp : isPySpace ' ' = true := by decide
      simp only [pySplitAux, hsp, if_true, List.append_nil, List.isEmpty_iff,
        hrevne, if_false, List.reverse_reverse]
      exact congrArg (t :: ·) (ih hrest)

/-- `handleTasks` attempts every requested name and its output is the
concatenation of the independent per-name outputs. -/
theorem handleTasks_spec (runTask : String → Except String Unit)
    (verbose : Bool) (args : List String) :
    (handleTasks runTask verbose args).2 = args
      ∧ (handleTasks runTask verbose args).1
        = args.flatMap (handleOne runTask verbose) := by
  induction args with
  | nil => exact ⟨rfl, rfl⟩
  | cons name rest ih =>
    refine ⟨?_, ?_⟩
    · show name :: (handleTasks runTask verbose rest).2 = name :: rest
      rw [ih.1]
    · show handleOne runTask verbose name ++ (handleTasks runTask verbose rest).1
        = (name :: rest).flatMap (handleOne runTask verbose)
      rw [ih.2, List.flatMap_cons]

/-- `ensureName` never touches the `SourcePackage` table. -/
theorem ensureName_sourcePackages (n : String) (s : TaskState) :
    (ensureName n s).db.sourcePackages = s.db.sourcePackages := by
  unfold ensureName
  split <;> rfl

/-- `ensureName` never consumes a `SourcePackage` primary key. -/
theorem ensureName_nextPk (n : String) (s : TaskState) :
    (ensureName n s).db.nextPk = s.db.nextPk := by
  unfold ensureName
  split <;> rfl

/-- `ensureName` raises no `new-source-package-version` event. -/
theorem ensureName_version_event_mem (n nm vr : String) (pk : Nat)
    (s : TaskState) :
    Event.newSourcePackageVersion nm vr pk ∈ (ensureName n s).events
      ↔ Event.newSourcePackageVersion nm vr pk ∈ s.events := by
  unfold ensureName
  split
  · exact Iff.rfl
  · simp

/-- `ensureRepoEntry` never touches the `SourcePackage` table. -/
theorem ensureRepoEntry_sourcePackages (repo : String) (stanza : Stanza)
    (s : TaskState) :
    (ensureRepoEntry repo stanza s).db.sourcePackages
      = s.db.sourcePackages := by
  unfold ensureRepoEntry
  split <;> rfl

/-- `ensureRepoEntry` raises no `new-source-package-version` event. -/
theorem ensureRepoEntry_version_event_mem (repo : String) (stanza : Stanza)
    (nm vr : String) (pk : Nat) (s : TaskState) :
    Event.newSourcePackageVersion nm vr pk
        ∈ (ensureRepoEntry repo stanza s).events
      ↔ Event.newSourcePackageVersion nm vr pk ∈ s.events := by
  unfold ensureRepoEntry
  split
  · exact Iff.rfl
  · by_cases hb : s.db.entries.any
        (fun e => e.repository == repo && e.name == stanza.package) = true
    · simp [hb]
    · simp [hb]

/-- `ensureVersion` on an already-existing `(name, version)` pair is the
identity: nothing is created, updated, or raised. -/
theorem ensureVersion_existing (stanza : Stanza) (s : TaskState)
    (h : s.db.sourcePackages.any
      (fun sp => sp.name == stanza.package
        && sp.version == stanza.version) = true) :
    ensureVersion stanza s = s := by
  unfold ensureVersion
  rw [if_pos h]

/-- `ensureVersion` on a fresh `(name, version)` pair appends the new record
carrying the stanza's metadata and raises `new-source-package-version` with
the new primary key. -/
theorem ensureVersion_new (stanza : Stanza) (s : TaskState)
    (h : s.db.sourcePackages.any
      (fun sp => sp.name == stanza.package
        && sp.version == stanza.version) = false) :
    (ensureVersion stanza s).db.sourcePackages
      = s.db.sourcePackages
        ++ [⟨stanza.package, stanza.version, s.db.nextPk, stanza.maintainer,
            stanza.binaries⟩]
    ∧ Event.newSourcePackageVersion stanza.package stanza.version s.db.nextPk
        ∈ (ensureVersion stanza s).events := by
  unfold ensureVersion
  rw [if_neg (by simp [h])]
  exact ⟨rfl, by simp⟩

/-- Deduplication preserves membership (Python's `set(...)`). -/
theorem mem_dedup (a : String) (l : List String) : a ∈ dedup l ↔ a ∈ l := by
  induction l with
  | nil => simp [dedup]
  | cons x xs ih =>
    by_cases hax : a = x
    · subst hax
      simp [dedup]
    · simp [dedup, List.mem_filter, hax, ih]

/-! ## Claim theorems -/

/-- C5: if the repository-sync task's execute body raises an exception at any
point — whatever events it had emitted and mutations it had performed — then
afterwards the run holds zero events attributed to the task and the record
store is unchanged from its state before execute began. -/
theorem c5_execute_failure_rolls_back
    (body : DB → Except String (DB × List Event)) (db : DB) (msg : String)
    (h : body db = Except.error msg) :
    clearAllEventsOnException body db = (db, []) := by
  simp [clearAllEventsOnException, h]

/-- Witness for C5: a run whose apt cache update fails rolls back to the
initial record store with no events. -/
theorem c5_witness :
    updateRepositoriesExecuteBody hookNotImplemented
        (Except.error "download failed") emptyDB
      = Except.error "download failed"
    ∧ clearAllEventsOnException
        (updateRepositoriesExecuteBody hookNotImplemented
          (Except.error "download failed"))
        emptyDB
      = (emptyDB, []) :=
  ⟨rfl,
    c5_execute_failure_rolls_back
      (updateRepositoriesExecuteBody hookNotImplemented
        (Except.error "download failed"))
      emptyDB "download failed" rfl⟩

/-- C8: the invocation processes each requested task name independently and
in order; a raising task does not stop later names from being processed; with
verbose output the failing name and its trace are printed, without it a
failure produces no output, and a succeeding task produces no output. -/
theorem c8_run_task_isolation (runTask : String → Except String Unit)
    (verbose : Bool) (args : List String) :
    (handleTasks runTask verbose args).2 = args
      ∧ (handleTasks runTask verbose args).1
        = args.flatMap (handleOne runTask verbose)
      ∧ (∀ name msg, runTask name = Except.error msg →
          handleOne runTask true name = [name ++ " failed!", msg]
            ∧ handleOne runTask false name = [])
      ∧ (∀ name, runTask name = Except.ok () →
          handleOne runTask verbose name = []) := by
  refine ⟨(handleTasks_spec runTask verbose args).1,
    (handleTasks_spec runTask verbose args).2, ?_, ?_⟩
  · intro name msg h
    exact ⟨by simp [handleOne, h], by simp [handleOne, h]⟩
  · intro name h
    simp [handleOne, h]

/-- Witness for C8: with a first task failing, both names are still
attempted, and the failure is printed only in verbose mode. -/
theorem c8_witness :
    (handleTasks sampleRunTask true ["t1", "t2"]).2 = ["t1", "t2"]
      ∧ handleOne sampleRunTask true "t1" = ["t1 failed!", "trace"]
      ∧ handleOne sampleRunTask false "t1" = [] :=
  ⟨(c8_run_task_isolation sampleRunTask true ["t1", "t2"]).1,
    ((c8_run_task_isolation sampleRunTask true ["t1", "t2"]).2.2.1
      "t1" "trace" rfl).1,
    ((c8_run_task_isolation sampleRunTask true ["t1", "t2"]).2.2.1
      "t1" "trace" rfl).2⟩

/-- C10: for every list of non-empty whitespace-free strings, serialising via
`get_prep_value` and parsing back via `to_python` yields a `PrettyPrintList`
comparing equal (via `PrettyPrintList.__eq__`) to the original list. -/
theorem c10_space_delimited_round_trip (l : List (List Char))
    (h : ∀ t ∈ l, t ≠ [] ∧ ∀ c ∈ t, isPySpace c = false) :
    prettyPrintListEqList (toPython (getPrepValue l)) l = true := by
  have : pySplit (pyJoin l) = l := pySplit_pyJoin l h
  simp [prettyPrintListEqList, toPython, getPrepValue, this]

/-- Witness for C10: the round-trip at the concrete list `["a", "bc"]`. -/
theorem c10_witness :
    prettyPrintListEqList
        (toPython (getPrepValue [['a'], ['b', 'c']])) [['a'], ['b', 'c']]
      = true :=
  c10_space_delimited_round_trip [['a'], ['b', 'c']] (by decide)

/-- C1: for a stanza whose `PackageVersion` already exists, the
repository-entry step either (no entry for `(repository, version)` yet)
raises `new-source-package-in-repository` exactly when the repository has no
entry for any version of the package name, always raises
`new-source-package-version-in-repository`, and creates the entry — or (entry
already present) raises neither event and only marks the existing entry as
still present. -/
theorem c1_repository_entry_events (repo : String) (stanza : Stanza)
    (s : TaskState) :
    (s.db.entries.find?
        (fun e => e.repository == repo && e.name == stanza.package
          && e.version == stanza.version) = none →
      (s.db.entries.any
          (fun e => e.repository == repo && e.name == stanza.package) = false →
        (ensureRepoEntry repo stanza s).events
          = s.events
            ++ [Event.newSourcePackageInRepository stanza.package repo,
              Event.newSourcePackageVersionInRepository
                stanza.package stanza.version repo])
      ∧ (s.db.entries.any
          (fun e => e.repository == repo && e.name == stanza.package) = true →
        (ensureRepoEntry repo stanza s).events
          = s.events
            ++ [Event.newSourcePackageVersionInRepository
                stanza.package stanza.version repo])
      ∧ (ensureRepoEntry repo stanza s).db.entries
          = s.db.entries
            ++ [{ id := s.db.nextEntryId, repository := repo,
                  name := stanza.package, version := stanza.version,
                  priority := stanza.priority, sect := stanza.sect }]
      ∧ (ensureRepoEntry repo stanza s).processed
          = s.processed ++ [s.db.nextEntryId])
    ∧ (∀ ent, s.db.entries.find?
        (fun e => e.repository == repo && e.name == stanza.package
          && e.version == stanza.version) = some ent →
      ensureRepoEntry repo stanza s
        = { s with processed := s.processed ++ [ent.id] }) := by
  constructor
  · intro hnone
    refine ⟨fun hany => ?_, fun hany => ?_, ?_, ?_⟩
    · simp [ensureRepoEntry, hnone, hany]
    · simp [ensureRepoEntry, hnone, hany]
    · simp [ensureRepoEntry, hnone]
    · simp [ensureRepoEntry, hnone]
  · intro ent hent
    simp [ensureRepoEntry, hent]

/-- Witness for C1: processing `pkg-a 1.0` against the empty store creates
the entry and raises both repository events. -/
theorem c1_witness :
    emptyState.db.entries.find?
        (fun e => e.repository == "R" && e.name == stanzaA1.package
          && e.version == stanzaA1.version) = none
    ∧ (ensureRepoEntry "R" stanzaA1 emptyState).events
      = emptyState.events
        ++ [Event.newSourcePackageInRepository stanzaA1.package "R",
          Event.newSourcePackageVersionInRepository
            stanzaA1.package stanzaA1.version "R"] :=
  ⟨rfl, ((c1_repository_entry_events "R" stanzaA1 emptyState).1 rfl).1 rfl⟩

/-- C2: after a repository's listing files are handled, exactly the
repository's entries whose id was not recorded as still present (neither by
the updated-file pass nor by the not-updated cached-file pass, whose recorded
ids `mid.processed` collects) are deleted, each with a
`lost-source-package-version-in-repository` event carrying its name, version
and repository; every other entry is left in place. -/
theorem c2_stale_entry_removal (allowHook : Stanza → AllowResult)
    (r : RepoInput) (s mid : TaskState)
    (_hs : s.processed = [])
    (hmid : mid = r.cachedNotUpdatedFiles.foldl
        (fun acc f => markSourcesFileNotProcessed r.repo f acc)
        (r.updatedFiles.foldl
          (fun acc f => updateSourcesFile allowHook r.repo f acc) s)) :
    (processRepository allowHook s r).db.entries
      = mid.db.entries.filter
          (fun e => !(e.repository == r.repo && !(mid.processed.contains e.id)))
    ∧ (processRepository allowHook s r).events
      = mid.events
        ++ (mid.db.entries.filter
            (fun e => e.repository == r.repo
              && !(mid.processed.contains e.id))).map
          (fun e => Event.lostSourcePackageVersionInRepository
            e.name e.version e.repository)
    ∧ (processRepository allowHook s r).processed = [] := by
  subst hmid
  exact ⟨rfl, rfl, rfl⟩

/-- Witness for C2: a run of repository `R` over the empty store starts with
no processed entries and ends with the processed list cleared. -/
theorem c2_witness :
    emptyState.processed = []
    ∧ (processRepository hookNotImplemented emptyState repoInputA).processed
      = [] :=
  ⟨rfl,
    (c2_stale_entry_removal hookNotImplemented repoInputA emptyState _
      rfl rfl).2.2⟩

/-- C3: the run-final garbage collection keeps a `PackageVersion` exactly
when its `RepositoryEntry` count is nonzero, and keeps a `PackageName`
exactly when its count of remaining `PackageVersion` rows (after the version
deletions) is nonzero. -/
theorem c3_gc_count_iff (s : TaskState) :
    (∀ sp : SourcePackage,
      sp ∈ (removeObsoletePackages s).db.sourcePackages
        ↔ sp ∈ s.db.sourcePackages ∧ entryCount s.db sp ≠ 0)
    ∧ (∀ n : String,
      n ∈ (removeObsoletePackages s).db.sourceNames
        ↔ n ∈ s.db.sourceNames
          ∧ versionCount (removeObsoletePackages s).db n ≠ 0) := by
  constructor
  · intro sp
    simp [removeObsoletePackages, List.mem_filter]
  · intro n
    simp [removeObsoletePackages, List.mem_filter, versionCount]

/-- Witness for C3: the garbage-collection membership condition evaluated for
a concrete version record over the empty store. -/
theorem c3_witness :
    (⟨"pkg-a", "1.0", 0, "maint", []⟩ : SourcePackage)
        ∈ (removeObsoletePackages emptyState).db.sourcePackages
      ↔ (⟨"pkg-a", "1.0", 0, "maint", []⟩ : SourcePackage)
          ∈ emptyState.db.sourcePackages
        ∧ entryCount emptyState.db ⟨"pkg-a", "1.0", 0, "maint", []⟩ ≠ 0 :=
  (c3_gc_count_iff emptyState).1 ⟨"pkg-a", "1.0", 0, "maint", []⟩

/-- C4: the garbage collection proceeds in the fixed order versions → names →
binary names; the events of each stage are appended (in stage order, before
the next stage's) exactly for the rows the stage deletes, and the deletions
of each stage are visible to the counts of the later stages. -/
theorem c4_gc_order (s : TaskState) :
    (removeObsoletePackages s).events
      = s.events
        ++ (s.db.sourcePackages.filter
            (fun sp => entryCount s.db sp == 0)).map
          (fun sp => Event.lostVersionOfSourcePackage sp.name sp.version)
        ++ (s.db.sourceNames.filter
            (fun n => versionCount (removeObsoletePackages s).db n == 0)).map
          Event.lostSourcePackage
        ++ (s.db.binaryNames.filter
            (fun b => binaryRefCount (removeObsoletePackages s).db b == 0)).map
          Event.lostBinaryPackage
    ∧ (removeObsoletePackages s).db.sourcePackages
        = s.db.sourcePackages.filter (fun sp => !(entryCount s.db sp == 0))
    ∧ (removeObsoletePackages s).db.sourceNames
        = s.db.sourceNames.filter
            (fun n => !(versionCount (removeObsoletePackages s).db n == 0))
    ∧ (removeObsoletePackages s).db.binaryNames
        = s.db.binaryNames.filter
            (fun b => !(binaryRefCount (removeObsoletePackages s).db b == 0))
    ∧ (removeObsoletePackages s).db.entries = s.db.entries :=
  ⟨rfl, rfl, rfl, rfl, rfl⟩

/-- Witness for C4: the garbage collection over the empty store leaves the
entry table unchanged. -/
theorem c4_witness :
    (removeObsoletePackages emptyState).db.entries = emptyState.db.entries :=
  (c4_gc_order emptyState).2.2.2.2

/-- Counterexample to C6: in a listing with two stanzas for `pkg-a` with
versions `1.0` and `2.0`, the later duplicate stanza DOES contribute: its
`new-source-package-version-in-repository` event is raised, its repository
entry is created, and its entry is marked still present (two processed ids),
contradicting "the later duplicate stanza contributes no record creation, no
event, and no still-present marking". -/
theorem c6_counterexample :
    Event.newSourcePackageVersionInRepository "pkg-a" "2.0" "R"
        ∈ (updateSourcesFile hookNotImplemented "R" [stanzaA1, stanzaA2]
            emptyState).events
    ∧ (⟨1, "R", "pkg-a", "2.0", "optional", "misc"⟩ : RepoEntry)
        ∈ (updateSourcesFile hookNotImplemented "R" [stanzaA1, stanzaA2]
            emptyState).db.entries
    ∧ (updateSourcesFile hookNotImplemented "R" [stanzaA1, stanzaA2]
        emptyState).processed = [0, 1] := by
  refine ⟨?_, ?_, rfl⟩ <;> decide

/-- C6 (amended): for a listing file with two stanzas of the same package
name but different versions, the updated-file pass processes each stanza
independently — the later duplicate also creates its `PackageVersion` and
`RepositoryEntry`, raises its events and is marked still present — while the
not-updated cached-file pass keeps the LAST-seen version for the name, so
exactly the entries carrying the last-seen version are marked still present;
no duplicate is logged. -/
theorem c6_amended_duplicate_stanzas (repo n v1 v2 pr se m : String)
    (hne : v1 ≠ v2) (s : TaskState) :
    (updateSourcesFile hookNotImplemented repo
        [⟨n, v1, pr, se, m, []⟩, ⟨n, v2, pr, se, m, []⟩] emptyState).events
      = [Event.newSourcePackage n,
        Event.newSourcePackageVersion n v1 0,
        Event.newSourcePackageInRepository n repo,
        Event.newSourcePackageVersionInRepository n v1 repo,
        Event.newSourcePackageVersion n v2 1,
        Event.newSourcePackageVersionInRepository n v2 repo]
    ∧ (updateSourcesFile hookNotImplemented repo
        [⟨n, v1, pr, se, m, []⟩, ⟨n, v2, pr, se, m, []⟩]
          emptyState).db.entries
      = [⟨0, repo, n, v1, pr, se⟩, ⟨1, repo, n, v2, pr, se⟩]
    ∧ (updateSourcesFile hookNotImplemented repo
        [⟨n, v1, pr, se, m, []⟩, ⟨n, v2, pr, se, m, []⟩]
          emptyState).processed
      = [0, 1]
    ∧ (markSourcesFileNotProcessed repo
        [⟨n, v1, pr, se, m, []⟩, ⟨n, v2, pr, se, m, []⟩] s).processed
      = s.processed
        ++ (s.db.entries.filter
            (fun e => e.repository == repo && e.name == n
              && e.version == v2)).map (fun e => e.id) := by
  have hfil : ∀ e ∈ s.db.entries,
      (e.repository == repo
          && lookupLast [(n, v1), (n, v2)] e.name == some e.version)
        = (e.repository == repo && e.name == n && e.version == v2) := by
    intro e _
    have hlook : lookupLast [(n, v1), (n, v2)] e.name
        = if n == e.name then some v2 else none := by
      by_cases h : n = e.name <;> simp [lookupLast, h]
    rw [hlook]
    by_cases hname : e.name = n
    · by_cases hv : e.version = v2
      · simp [hname, hv]
      · have hv2 : ¬v2 = e.version := fun hh => hv hh.symm
        have h1 : (v2 == e.version) = false := by simp [hv2]
        have h2 : (e.version == v2) = false := by simp [hv]
        simp [hname, h1, h2]
    · have hn2 : ¬n = e.name := fun hh => hname hh.symm
      simp [hname, hn2]
  refine ⟨?_, ?_, ?_, ?_⟩
  · simp [updateSourcesFile, updateSourcesStanza, ensureName, ensureVersion,
      ensureRepoEntry, hookNotImplemented, allowSkip, emptyState, emptyDB, hne]
  · simp [updateSourcesFile, updateSourcesStanza, ensureName, ensureVersion,
      ensureRepoEntry, hookNotImplemented, allowSkip, emptyState, emptyDB, hne]
  · simp [updateSourcesFile, updateSourcesStanza, ensureName, ensureVersion,
      ensureRepoEntry, hookNotImplemented, allowSkip, emptyState, emptyDB, hne]
  · simp only [markSourcesFileNotProcessed, List.map_cons, List.map_nil]
    rw [List.filter_congr hfil]

/-- Witness for C6 (amended): the duplicate-stanza run at the concrete
versions `1.0` and `2.0` raises events for both stanzas. -/
theorem c6_witness :
    ("1.0" : String) ≠ "2.0"
    ∧ (updateSourcesFile hookNotImplemented "R"
        [⟨"pkg-a", "1.0", "optional", "misc", "maint", []⟩,
          ⟨"pkg-a", "2.0", "optional", "misc", "maint", []⟩]
          emptyState).events
      = [Event.newSourcePackage "pkg-a",
        Event.newSourcePackageVersion "pkg-a" "1.0" 0,
        Event.newSourcePackageInRepository "pkg-a" "R",
        Event.newSourcePackageVersionInRepository "pkg-a" "1.0" "R",
        Event.newSourcePackageVersion "pkg-a" "2.0" 1,
        Event.newSourcePackageVersionInRepository "pkg-a" "2.0" "R"] :=
  ⟨by decide,
    (c6_amended_duplicate_stanzas "R" "pkg-a" "1.0" "2.0" "optional" "misc"
      "maint" (by decide) emptyState).1⟩

/-- C7: for a stanza passing the allow hook, the stanza's metadata is
attached only when the `(name, version)` record is newly created — the new
record carries the stanza's metadata and `new-source-package-version` is
raised with its primary key exactly then; for an already-existing
`PackageVersion` the whole `SourcePackage` table (hence every field of the
record) is unchanged and no `new-source-package-version` event is raised. -/
theorem c7_metadata_on_creation_only (allowHook : Stanza → AllowResult)
    (repo : String) (stanza : Stanza) (s : TaskState)
    (hpass : allowSkip (allowHook stanza) = false) :
    (s.db.sourcePackages.any
        (fun sp => sp.name == stanza.package
          && sp.version == stanza.version) = true →
      (updateSourcesStanza allowHook repo s stanza).db.sourcePackages
        = s.db.sourcePackages
      ∧ ∀ pk, (Event.newSourcePackageVersion stanza.package stanza.version pk
            ∈ (updateSourcesStanza allowHook repo s stanza).events
          ↔ Event.newSourcePackageVersion stanza.package stanza.version pk
            ∈ s.events))
    ∧ (s.db.sourcePackages.any
        (fun sp => sp.name == stanza.package
          && sp.version == stanza.version) = false →
      (updateSourcesStanza allowHook repo s stanza).db.sourcePackages
        = s.db.sourcePackages
          ++ [⟨stanza.package, stanza.version, s.db.nextPk, stanza.maintainer,
              stanza.binaries⟩]
      ∧ Event.newSourcePackageVersion stanza.package stanza.version
          s.db.nextPk
          ∈ (updateSourcesStanza allowHook repo s stanza).events) := by
  have hstep : updateSourcesStanza allowHook repo s stanza
      = ensureRepoEntry repo stanza
          (ensureVersion stanza (ensureName stanza.package s)) := by
    unfold updateSourcesStanza
    rw [if_neg (by simp [hpass])]
  constructor
  · intro hex
    have hex1 : (ensureName stanza.package s).db.sourcePackages.any
        (fun sp => sp.name == stanza.package
          && sp.version == stanza.version) = true := by
      rw [ensureName_sourcePackages]
      exact hex
    have hid := ensureVersion_existing stanza (ensureName stanza.package s) hex1
    constructor
    · rw [hstep, ensureRepoEntry_sourcePackages, hid,
        ensureName_sourcePackages]
    · intro pk
      rw [hstep, hid]
      exact (ensureRepoEntry_version_event_mem repo stanza stanza.package
          stanza.version pk (ensureName stanza.package s)).trans
        (ensureName_version_event_mem stanza.package stanza.package
          stanza.version pk s)
  · intro hnew
    have hnew1 : (ensureName stanza.package s).db.sourcePackages.any
        (fun sp => sp.name == stanza.package
          && sp.version == stanza.version) = false := by
      rw [ensureName_sourcePackages]
      exact hnew
    obtain ⟨hsp, hmem⟩ :=
      ensureVersion_new stanza (ensureName stanza.package s) hnew1
    rw [ensureName_nextPk] at hsp hmem
    constructor
    · rw [hstep, ensureRepoEntry_sourcePackages, hsp,
        ensureName_sourcePackages]
    · rw [hstep]
      exact (ensureRepoEntry_version_event_mem repo stanza stanza.package
          stanza.version s.db.nextPk
          (ensureVersion stanza (ensureName stanza.package s))).mpr hmem

/-- Witness for C7: re-seeing the already-stored `pkg-a 1.0` leaves the
version table unchanged and raises no `new-source-package-version` event. -/
theorem c7_witness :
    stateWithA1.db.sourcePackages.any
        (fun sp => sp.name == stanzaA1.package
          && sp.version == stanzaA1.version) = true
    ∧ (updateSourcesStanza hookNotImplemented "R" stateWithA1
        stanzaA1).db.sourcePackages
      = stateWithA1.db.sourcePackages
    ∧ (Event.newSourcePackageVersion stanzaA1.package stanzaA1.version 7
        ∈ (updateSourcesStanza hookNotImplemented "R" stateWithA1
            stanzaA1).events
      ↔ Event.newSourcePackageVersion stanzaA1.package stanzaA1.version 7
        ∈ stateWithA1.events) :=
  ⟨by decide,
    ((c7_metadata_on_creation_only hookNotImplemented "R" stanzaA1 stateWithA1
      rfl).1 (by decide)).1,
    ((c7_metadata_on_creation_only hookNotImplemented "R" stanzaA1 stateWithA1
      rfl).1 (by decide)).2 7⟩

/-- C9: the pseudo-package list update never deletes a record; an exception,
an unimplemented hook or a `None` result leaves the stored list unchanged;
packages still in the vendor set (and all non-pseudo packages) are left
untouched; pseudo packages no longer in the set are demoted to
subscription-only keeping their other fields; and set names with no existing
record are created as pseudo packages. -/
theorem c9_pseudo_package_update (packages : List PackageRecord)
    (names : List String) :
    (∀ msg, updatePseudoPackageList (Except.error msg) packages = packages)
    ∧ (∀ maybeNames,
        updatePseudoPackageList (Except.ok (maybeNames, false)) packages
          = packages)
    ∧ updatePseudoPackageList (Except.ok (none, true)) packages = packages
    ∧ (∀ p ∈ packages,
        ∃ q ∈ updatePseudoPackageList (Except.ok (some names, true)) packages,
          q.name = p.name ∧ q.otherFields = p.otherFields)
    ∧ (∀ p ∈ packages,
        (p.packageType = PackageType.pseudo → names.contains p.name = true) →
        p ∈ updatePseudoPackageList (Except.ok (some names, true)) packages)
    ∧ (∀ p ∈ packages, p.packageType = PackageType.pseudo →
        names.contains p.name = false →
        ({ p with packageType := PackageType.subscriptionOnly } : PackageRecord)
          ∈ updatePseudoPackageList (Except.ok (some names, true)) packages)
    ∧ (∀ n ∈ names, (∀ p ∈ packages, p.name ≠ n) →
        ({ name := n, packageType := PackageType.pseudo, otherFields := "" }
            : PackageRecord)
          ∈ updatePseudoPackageList (Except.ok (some names, true)) packages) := by
  have hres : updatePseudoPackageList (Except.ok (some names, true)) packages
      = packages.map (fun p =>
          if p.packageType == PackageType.pseudo
              && !((dedup names).contains p.name)
          then { p with packageType := PackageType.subscriptionOnly }
          else p)
        ++ ((dedup names).filter
            (fun n => !((pseudoNames packages).contains n))).map
          (fun n =>
            { name := n, packageType := PackageType.pseudo,
              otherFields := "" }) := rfl
  refine ⟨fun msg => rfl, fun maybeNames => rfl, rfl, ?_, ?_, ?_, ?_⟩
  · intro p hp
    rw [hres]
    refine ⟨_, List.mem_append_left _ (List.mem_map_of_mem _ hp), ?_, ?_⟩
    · by_cases hc : (p.packageType == PackageType.pseudo
          && !((dedup names).contains p.name)) = true
      · rw [if_pos hc]
      · rw [if_neg hc]
    · by_cases hc : (p.packageType == PackageType.pseudo
          && !((dedup names).contains p.name)) = true
      · rw [if_pos hc]
      · rw [if_neg hc]
  · intro p hp hkeep
    rw [hres]
    have hcond : (p.packageType == PackageType.pseudo
        && !((dedup names).contains p.name)) = false := by
      by_cases ht : p.packageType = PackageType.pseudo
      · have hmemn : p.name ∈ names := by
          have := hkeep ht
          simpa using this
        have hdm : p.name ∈ dedup names := (mem_dedup p.name names).mpr hmemn
        simp [hdm]
      · simp [ht]
    have hfp : (if (p.packageType == PackageType.pseudo
          && !((dedup names).contains p.name)) = true
        then ({ p with packageType := PackageType.subscriptionOnly }
          : PackageRecord)
        else p) = p := by
      rw [if_neg (fun hh => Bool.false_ne_true (hcond ▸ hh))]
    exact List.mem_append_left _ (List.mem_map.mpr ⟨p, hp, hfp⟩)
  · intro p hp ht hout
    rw [hres]
    have hnotmem : p.name ∉ names := by
      intro hmem
      simp [hmem] at hout
    have hdm : p.name ∉ dedup names :=
      fun hm => hnotmem ((mem_dedup p.name names).mp hm)
    have hcond : (p.packageType == PackageType.pseudo
        && !((dedup names).contains p.name)) = true := by
      simp [ht, hdm]
    have hfp : (if (p.packageType == PackageType.pseudo
          && !((dedup names).contains p.name)) = true
        then ({ p with packageType := PackageType.subscriptionOnly }
          : PackageRecord)
        else p) = { p with packageType := PackageType.subscriptionOnly } := by
      rw [if_pos hcond]
    exact List.mem_append_left _ (List.mem_map.mpr ⟨p, hp, hfp⟩)
  · intro n hn habs
    rw [hres]
    refine List.mem_append_right _ ?_
    have hnd : n ∈ dedup names := (mem_dedup n names).mpr hn
    have hnp : n ∉ pseudoNames packages := by
      intro hmem
      simp only [pseudoNames, List.mem_map, List.mem_filter] at hmem
      obtain ⟨p, ⟨hpm, _⟩, hpn⟩ := hmem
      exact habs p hpm hpn
    have : n ∈ (dedup names).filter
        (fun n => !((pseudoNames packages).contains n)) :=
      List.mem_filter.mpr ⟨hnd, by simp [hnp]⟩
    exact List.mem_map_of_mem _ this

/-- Witness for C9: with vendor set `y` over a store holding the pseudo
package `x`, the record `x` is demoted keeping its fields and `y` is
created. -/
theorem c9_witness :
    ({ name := "x", packageType := PackageType.subscriptionOnly,
        otherFields := "keep" } : PackageRecord)
      ∈ updatePseudoPackageList (Except.ok (some ["y"], true))
          pseudoPackagesFixture
    ∧ ({ name := "y", packageType := PackageType.pseudo, otherFields := "" }
          : PackageRecord)
      ∈ updatePseudoPackageList (Except.ok (some ["y"], true))
          pseudoPackagesFixture :=
  ⟨(c9_pseudo_package_update pseudoPackagesFixture ["y"]).2.2.2.2.2.1
      ⟨"x", PackageType.pseudo, "keep"⟩ (by decide) rfl (by decide),
    (c9_pseudo_package_update pseudoPackagesFixture ["y"]).2.2.2.2.2.2
      "y" (by decide) (by decide)⟩
